import Mathlib

/-!
Verification of the BrainTumorClassification preprocessing pipeline
(`src/btc_preprocess.py`), shallowly embedded in Lean 4.

Voxel intensities are modelled as rationals (`ℚ`).  A volume, for the
purpose of percentile/landmark computation, is the list of its voxel
values (the spatial arrangement is irrelevant to those computations).
Fallible numpy operations (indexing an empty array, `np.min` of an empty
selection) are modelled with `Option`: `none` is the raised exception.
-/

namespace BTC

/-- Minimum of an array, `np.min`: the default `d` is returned for the
empty array, which in numpy raises instead — callers that can meet the
empty case go through `Option` separately. -/
def listMin {α : Type} [LinearOrder α] (d : α) : List α → α
  | [] => d
  | x :: xs => xs.foldl min x

/-- Maximum of an array, `np.max`, with default `d` for the empty case. -/
def listMax {α : Type} [LinearOrder α] (d : α) : List α → α
  | [] => d
  | x :: xs => xs.foldl max x

/-- Background-sentinel correction, `btc_preprocess.py` lines 382–385
(and identically 444–447): if the volume minimum is negative, reassign
all zero voxels to that minimum, then shift so the new minimum is 0. -/
def bgCorrect (volume : List ℚ) : List ℚ :=
  let volumeMin := listMin 0 volume
  if volumeMin < 0 then
    let v1 := volume.map (fun v => if v = 0 then volumeMin else v)
    v1.map (fun v => v - listMin 0 v1)
  else
    volume

/-- Foreground selection `volume[np.where(volume > 0)]`, line 389: the
non-background voxels. -/
def foreground (volume : List ℚ) : List ℚ :=
  volume.filter (fun v => decide (0 < v))

/-- Sorting, `np.sort`, of the foreground voxels, line 390. -/
def sortedForeground (volume : List ℚ) : List ℚ :=
  List.insertionSort (· ≤ ·) (foreground volume)

/-- Percentile index, lines 396–398: `int(np.ceil(p * sort_len)) - 1`,
clamped up to 0 when negative. -/
def pctIdx (p : ℚ) (n : ℕ) : ℤ :=
  let i : ℤ := ⌈p * n⌉ - 1
  if i < 0 then 0 else i

/-- A `for` loop that appends one result per element, failing as a whole
as soon as one iteration fails (the Python loop raises through). -/
def mapOption {α β : Type} (f : α → Option β) : List α → Option (List β)
  | [] => some []
  | a :: l => (f a).bind (fun b => (mapOption f l).map (fun bs => b :: bs))

/-- The `for p in PCTS` loop, lines 394–399: one percentile value per
configured percentile, read from the sorted foreground.  Indexing out of
range (in particular on an empty foreground) fails. -/
def onePct (pcts : List ℚ) (sorted : List ℚ) : Option (List ℚ) :=
  mapOption (fun p => sorted.get? (pctIdx p sorted.length).toNat) pcts

/-- Per-volume percentile profile: the body of the subject loop of
`_get_volume_landmarks`, lines 374–399. -/
def getVolumeLandmarksOne (pcts : List ℚ) (volume : List ℚ) : Option (List ℚ) :=
  onePct pcts (sortedForeground (bgCorrect volume))

/-- Column `j` sum of a list of rows (`np.sum` along axis 0 at one
position; absent entries read 0, which never happens for the equal-length
rows the pipeline produces). -/
def colSum (rows : List (List ℚ)) (j : ℕ) : ℚ :=
  (rows.map (fun r => r.getD j 0)).sum

/-- Cohort mean `np.mean(all_volume_pct, axis=0)`, line 406: elementwise mean of the
`k`-column rows. -/
def meanAxis0 (k : ℕ) (rows : List (List ℚ)) : List ℚ :=
  (List.range k).map (fun j => colSum rows j / rows.length)

/-- The whole of `_get_volume_landmarks`, lines 373–408: per-subject percentile
profiles and their elementwise mean (the landmarks), for a cohort given
as the list of its subjects' volumes. -/
def getVolumeLandmarks (pcts : List ℚ) (cohort : List (List ℚ)) :
    Option (List ℚ × List (List ℚ)) :=
  (mapOption (getVolumeLandmarksOne pcts) cohort).map
    (fun allVolumePct => (meanAxis0 pcts.length allVolumePct, allVolumePct))

/-- Modelled from the spec (§4.1 cohort level): "average each percentile
position across all subjects' profiles, elementwise, to obtain the
LandmarkProfile" — the spec-side definition of the cohort mean, to be
compared with the code-side `meanAxis0` inside `getVolumeLandmarks`. -/
def specCohortMean (profiles : List (List ℚ)) : List ℚ :=
  (List.range (profiles.headD []).length).map
    (fun j => (profiles.map (fun r => r.getD j 0)).sum / profiles.length)

/-- Interpolation, `np.interp`, over the breakpoint pairs `(xp i, fp i)` with `xp`
non-decreasing: clamp to the first/last value outside the breakpoint
range, piecewise-linear inside.  The empty breakpoint list (which numpy
rejects) returns 0; it is never reached from the pipeline. -/
def interpPts (x : ℚ) : List (ℚ × ℚ) → ℚ
  | [] => 0
  | [(_, y0)] => y0
  | (x0, y0) :: (x1, y1) :: rest =>
    if x < x0 then y0
    else if x ≤ x1 then y0 + (y1 - y0) * (x - x0) / (x1 - x0)
    else interpPts x ((x1, y1) :: rest)

/-- The call `np.interp(x, xp, fp)`, line 461. -/
def interp (x : ℚ) (xp fp : List ℚ) : ℚ :=
  interpPts x (xp.zip fp)

/-- The per-voxel effect of `_intensity_transform` lines 449–465 on one
voxel of value `x`: interpolate the non-background voxels, then
overwrite the voxels at or above the subject's maximum percentile value
(`pct[i, -1]`, ≥ comparison, line 452) with the landmark maximum, and
finally overwrite the voxels below the subject's minimum percentile
value (`pct[i, 0]`, < comparison, line 456) with 0.  The index sets are
computed from the pre-interpolation values, and the `lower` overwrite is
applied last. -/
def transformVoxel (landmarks pct : List ℚ) (x : ℚ) : ℚ :=
  let y1 := if 0 < x then interp x pct landmarks else x
  let y2 := if pct.getLastD 0 ≤ x then landmarks.getLastD 0 else y1
  if x < pct.headD 0 then 0 else y2

/-- The body of `_intensity_transform`, lines 436–465, acting on one volume: the
background correction followed by the three classwise updates. -/
def intensityTransform (landmarks pct volume : List ℚ) : List ℚ :=
  (bgCorrect volume).map (transformVoxel landmarks pct)

/-- A 4-D array (three spatial axes and a trailing channel axis), as
assembled by `_merge_to_one_volume`: extents plus a total lookup
function (reads outside the extents never occur in the modelled code). -/
structure Arr4 where
  n0 : ℕ
  n1 : ℕ
  n2 : ℕ
  nc : ℕ
  data : ℕ → ℕ → ℕ → ℕ → ℚ

/-- A 3-D array (the mask volume). -/
structure Arr3 where
  n0 : ℕ
  n1 : ℕ
  n2 : ℕ
  data : ℕ → ℕ → ℕ → ℚ

/-- Channel sum `np.sum(full, axis=3)` at one voxel, line 603. -/
def fullSum (a : Arr4) (i j k : ℕ) : ℚ :=
  ((List.range a.nc).map (a.data i j k)).sum

/-- All spatial indices of the volume, in C order. -/
def allIdx (a : Arr4) : List (ℕ × ℕ × ℕ) :=
  (List.range a.n0).flatMap (fun i =>
    (List.range a.n1).flatMap (fun j =>
      (List.range a.n2).map (fun k => (i, j, k))))

/-- The background level `min_full_sum = np.min(full_sum)`, line 604. -/
def minFullSum (a : Arr4) : ℚ :=
  listMin 0 ((allIdx a).map (fun t => fullSum a t.1 t.2.1 t.2.2))

/-- Foreground indices `non_bg_index = np.where(full_sum > min_full_sum)`,
line 607: the
spatial indices of the voxels whose channel sum exceeds the minimum. -/
def nonBgIdx (a : Arr4) : List (ℕ × ℕ × ℕ) :=
  (allIdx a).filter (fun t => decide (minFullSum a < fullSum a t.1 t.2.1 t.2.2))

/-- Lower-bound clamp, lines 613–616: subtract the margin (done by the
caller) and floor the result at 0. -/
def clampBegin (b : ℤ) : ℤ :=
  if b < 0 then 0 else b

/-- Upper-bound clamp, lines 617–620: cap at `BRAIN_SHAPE[i] - 1` — the
fixed global shape constant `bsa`, not the volume's own extent. -/
def clampEnd (bsa : ℕ) (e : ℤ) : ℤ :=
  if e > (bsa : ℤ) - 1 then (bsa : ℤ) - 1 else e

/-- Extent of the numpy slice `[b:e]` of an axis of extent `n`, for
non-negative bounds: `min e n - min b n`, floored at 0. -/
def sliceLen (n : ℕ) (b e : ℤ) : ℕ :=
  (min e (n : ℤ) - min b (n : ℤ)).toNat

/-- The helper `sub_array` (lines 597–600) on the 4-D ensemble volume: slice the
three spatial axes by `[begins, ends)`, keep the channel axis whole. -/
def subArray4 (a : Arr4) (b e : ℤ × ℤ × ℤ) : Arr4 where
  n0 := sliceLen a.n0 b.1 e.1
  n1 := sliceLen a.n1 b.2.1 e.2.1
  n2 := sliceLen a.n2 b.2.2 e.2.2
  nc := a.nc
  data := fun i j k c => a.data (b.1.toNat + i) (b.2.1.toNat + j) (b.2.2.toNat + k) c

/-- The helper `sub_array` on the 3-D mask volume. -/
def subArray3 (a : Arr3) (b e : ℤ × ℤ × ℤ) : Arr3 where
  n0 := sliceLen a.n0 b.1 e.1
  n1 := sliceLen a.n1 b.2.1 e.2.1
  n2 := sliceLen a.n2 b.2.2 e.2.2
  data := fun i j k => a.data (b.1.toNat + i) (b.2.1.toNat + j) (b.2.2.toNat + k)

/-- Result of `_keep_minimum_volume`: the clamped index ranges and the
two cropped volumes. -/
structure CropResult where
  begins : ℤ × ℤ × ℤ
  ends : ℤ × ℤ × ℤ
  newFull : Arr4
  newMask : Arr3

/-- The body of `_keep_minimum_volume`, lines 575–627, parametrised by the settings
constants `bs = BRAIN_SHAPE` and `es = EDGE_SPACE` (their values live in
`btc_settings.py`, which is not part of this repository snapshot).  The
per-axis foreground ranges are expanded by the margin and clamped
(lines 612–620), then both volumes are sliced.  When no voxel exceeds
the minimum channel sum, `np.min` of the empty index list raises; that
failure is `none`. -/
def keepMinimumVolume (bs : ℕ × ℕ × ℕ) (es : ℕ) (full : Arr4) (mask : Arr3) :
    Option CropResult :=
  match nonBgIdx full with
  | [] => none
  | t :: ts =>
    let nzi := t :: ts
    let begins : ℤ × ℤ × ℤ :=
      (clampBegin (listMin 0 (nzi.map (fun u => (u.1 : ℤ))) - es),
       clampBegin (listMin 0 (nzi.map (fun u => (u.2.1 : ℤ))) - es),
       clampBegin (listMin 0 (nzi.map (fun u => (u.2.2 : ℤ))) - es))
    let ends : ℤ × ℤ × ℤ :=
      (clampEnd bs.1 (listMax 0 (nzi.map (fun u => (u.1 : ℤ))) + 1 + es),
       clampEnd bs.2.1 (listMax 0 (nzi.map (fun u => (u.2.1 : ℤ))) + 1 + es),
       clampEnd bs.2.2 (listMax 0 (nzi.map (fun u => (u.2.2 : ℤ))) + 1 + es))
    some { begins := begins, ends := ends,
           newFull := subArray4 full begins ends,
           newMask := subArray3 mask begins ends }

/-- The §8 merge scenario: a `(4,4,4)` spatial volume with four channels
in which exactly voxel `(2,2,2)` is non-background in every channel. -/
def scenarioFull : Arr4 where
  n0 := 4
  n1 := 4
  n2 := 4
  nc := 4
  data := fun i j k _ => if i = 2 ∧ j = 2 ∧ k = 2 then 1 else 0

/-- An all-background `(4,4,4)` mask for the merge scenarios. -/
def scenarioMask : Arr3 where
  n0 := 4
  n1 := 4
  n2 := 4
  data := fun _ _ _ => 0

/-- A `(4,4,4)` four-channel volume whose only non-background voxel
`(3,3,3)` touches the image edge. -/
def edgeFull : Arr4 where
  n0 := 4
  n1 := 4
  n2 := 4
  nc := 4
  data := fun i j k _ => if i = 3 ∧ j = 3 ∧ k = 3 then 1 else 0

/-- An all-zero `(2,2,2)` single-channel volume: every voxel's channel
sum equals the minimum sum, so no foreground exists. -/
def zeroFull : Arr4 where
  n0 := 2
  n1 := 2
  n2 := 2
  nc := 1
  data := fun _ _ _ _ => 0

/-- An all-zero `(2,2,2)` mask. -/
def zeroMask : Arr3 where
  n0 := 2
  n1 := 2
  n2 := 2
  data := fun _ _ _ => 0

attribute [local semireducible] Rat.sub Rat.mul Rat.inv Rat.add

set_option maxRecDepth 100000

lemma mapOption_get? {α β : Type} (f : α → Option β) :
    ∀ {l : List α} {bs : List β}, mapOption f l = some bs →
      ∀ i : ℕ, bs.get? i = (l.get? i).bind f := by
  intro l
  induction l with
  | nil =>
    intro bs h i
    simp only [mapOption] at h
    cases h
    simp
  | cons a t ih =>
    intro bs h i
    simp only [mapOption] at h
    cases hfa : f a with
    | none => rw [hfa] at h; simp at h
    | some b =>
      rw [hfa] at h
      cases hmt : mapOption f t with
      | none => rw [hmt] at h; simp at h
      | some bt =>
        rw [hmt] at h
        simp only [Option.some_bind, Option.map_some'] at h
        cases h
        cases i with
        | zero => simp [hfa]
        | succ n => simpa using ih hmt n

lemma mapOption_length {α β : Type} (f : α → Option β) :
    ∀ {l : List α} {bs : List β}, mapOption f l = some bs → bs.length = l.length := by
  intro l
  induction l with
  | nil => intro bs h; simp only [mapOption] at h; cases h; rfl
  | cons a t ih =>
    intro bs h
    simp only [mapOption] at h
    cases hfa : f a with
    | none => rw [hfa] at h; simp at h
    | some b =>
      rw [hfa] at h
      cases hmt : mapOption f t with
      | none => rw [hmt] at h; simp at h
      | some bt =>
        rw [hmt] at h
        simp only [Option.some_bind, Option.map_some'] at h
        cases h
        simp [ih hmt]

lemma mapOption_map_eq {α β : Type} (f : α → Option β) (g : α → β) :
    ∀ l : List α, (∀ a ∈ l, f a = some (g a)) → mapOption f l = some (l.map g) := by
  intro l
  induction l with
  | nil => intro _; rfl
  | cons a t ih =>
    intro h
    simp only [mapOption, h a (List.mem_cons_self a t),
      ih (fun x hx => h x (List.mem_cons_of_mem a hx)), List.map_cons]
    rfl

lemma pctIdx_eq_max (p : ℚ) (n : ℕ) : pctIdx p n = max (⌈p * n⌉ - 1) 0 := by
  simp only [pctIdx]
  split <;> omega

lemma pctIdx_lt (p : ℚ) (n : ℕ) (hp1 : p ≤ 1) (hn : 1 ≤ n) :
    (pctIdx p n).toNat < n := by
  have hle : ⌈p * (n : ℚ)⌉ ≤ (n : ℤ) := by
    have h1 : p * (n : ℚ) ≤ (n : ℚ) := by
      calc p * (n : ℚ) ≤ 1 * (n : ℚ) :=
            mul_le_mul_of_nonneg_right hp1 (Nat.cast_nonneg n)
        _ = (n : ℚ) := one_mul _
    calc ⌈p * (n : ℚ)⌉ ≤ ⌈((n : ℤ) : ℚ)⌉ := Int.ceil_le_ceil (by exact_mod_cast h1)
      _ = (n : ℤ) := Int.ceil_intCast n
  rw [pctIdx_eq_max]
  omega

lemma pctIdx_mono (p q : ℚ) (n : ℕ) (hpq : p ≤ q) : pctIdx p n ≤ pctIdx q n := by
  have := Int.ceil_le_ceil (mul_le_mul_of_nonneg_right hpq (Nat.cast_nonneg (α := ℚ) n))
  rw [pctIdx_eq_max, pctIdx_eq_max]
  omega

/-- C1: a volume with no non-background voxel makes the per-volume
percentile computation fail (the empty sorted array is indexed, which
raises; here the result is `none`): no profile, no silent NaNs. -/
theorem landmarks_empty_foreground_fails (pcts volume : List ℚ)
    (hfg : foreground (bgCorrect volume) = []) (hpcts : pcts ≠ []) :
    getVolumeLandmarksOne pcts volume = none := by
  cases pcts with
  | nil => exact absurd rfl hpcts
  | cons p ps =>
    unfold getVolumeLandmarksOne onePct sortedForeground
    rw [hfg]
    rfl

/-- C1 witness: an all-background volume with the three §8 percentiles. -/
theorem landmarks_empty_foreground_fails_witness :
    getVolumeLandmarksOne [1/10, 1/2, 99/100] [0, 0, 0] = none :=
  landmarks_empty_foreground_fails [1/10, 1/2, 99/100] [0, 0, 0] (by decide) (by decide)

/-- C5: on a volume with `n ≥ 1` sorted non-background voxels and
percentiles `0 < p ≤ 1`, the profile entry for `p` is the sorted value
at index `ceil(p * n) - 1` clamped up to 0. -/
theorem percentile_selection_rule (pcts volume : List ℚ)
    (hn : 1 ≤ (sortedForeground (bgCorrect volume)).length)
    (hp : ∀ p ∈ pcts, 0 < p ∧ p ≤ 1) :
    getVolumeLandmarksOne pcts volume =
      some (pcts.map (fun p =>
        (sortedForeground (bgCorrect volume)).getD
          (max (⌈p * ((sortedForeground (bgCorrect volume)).length : ℚ)⌉ - 1) 0).toNat 0)) := by
  unfold getVolumeLandmarksOne onePct
  apply mapOption_map_eq
  intro p hpmem
  have hlt := pctIdx_lt p (sortedForeground (bgCorrect volume)).length (hp p hpmem).2 hn
  rw [← pctIdx_eq_max]
  have h := List.get?_eq_some.mpr ⟨hlt, rfl⟩
  rw [h, List.getD_eq_get?, h]
  rfl

/-- C5 witness: the §8 scenario — sole non-background voxel 100 and
percentiles `{0.1, 0.5, 0.99}` give the profile `[100, 100, 100]`. -/
theorem percentile_selection_rule_witness :
    getVolumeLandmarksOne [1/10, 1/2, 99/100] [0, 100, 0] = some [100, 100, 100] := by
  rw [percentile_selection_rule [1/10, 1/2, 99/100] [0, 100, 0] (by decide) (by decide)]
  decide

/-- C8: whenever the per-volume percentile computation returns a
profile, and the configured percentile points are ordered, the profile
is monotonically non-decreasing. -/
theorem profile_monotone (pcts volume prof : List ℚ)
    (hmono : List.Pairwise (· ≤ ·) pcts)
    (h : getVolumeLandmarksOne pcts volume = some prof) :
    List.Pairwise (· ≤ ·) prof := by
  rw [List.pairwise_iff_get]
  intro i j hij
  unfold getVolumeLandmarksOne onePct at h
  have hget := mapOption_get? _ h
  have hlen := mapOption_length _ h
  have hi' : (i : ℕ) < pcts.length := by rw [← hlen]; exact i.isLt
  have hj' : (j : ℕ) < pcts.length := by rw [← hlen]; exact j.isLt
  have hpi := hget i
  have hpj := hget j
  rw [List.get?_eq_get i.isLt, List.get?_eq_get hi'] at hpi
  rw [List.get?_eq_get j.isLt, List.get?_eq_get hj'] at hpj
  simp only [Option.some_bind] at hpi hpj
  obtain ⟨hlti, heqi⟩ := List.get?_eq_some.mp hpi.symm
  obtain ⟨hltj, heqj⟩ := List.get?_eq_some.mp hpj.symm
  have hple : pcts.get ⟨i, hi'⟩ ≤ pcts.get ⟨j, hj'⟩ :=
    List.pairwise_iff_get.mp hmono ⟨i, hi'⟩ ⟨j, hj'⟩ hij
  have hidx := pctIdx_mono _ _ (sortedForeground (bgCorrect volume)).length hple
  have hsorted : (sortedForeground (bgCorrect volume)).Sorted (· ≤ ·) :=
    List.sorted_insertionSort _ _
  rw [← heqi, ← heqj]
  exact hsorted.rel_get_of_le (by simp only [Fin.mk_le_mk]; omega)

/-- C8 witness: the monotone profile of the single-voxel scenario. -/
theorem profile_monotone_witness :
    List.Pairwise (· ≤ ·) ([100, 100, 100] : List ℚ) :=
  profile_monotone [1/10, 1/2, 99/100] [0, 100, 0] [100, 100, 100]
    (by decide) (by decide)

lemma meanAxis0_eq_spec (k : ℕ) (rows : List (List ℚ))
    (hk : (rows.headD []).length = k) : meanAxis0 k rows = specCohortMean rows := by
  unfold meanAxis0 specCohortMean colSum
  rw [hk]

/-- C6: whenever `_get_volume_landmarks` returns, the landmark profile
it pairs with the per-subject profiles is exactly their elementwise
arithmetic mean (the spec-side `specCohortMean`). -/
theorem landmarks_are_cohort_mean (pcts : List ℚ) (cohort : List (List ℚ))
    (lm : List ℚ) (ps : List (List ℚ)) (hc : cohort ≠ [])
    (h : getVolumeLandmarks pcts cohort = some (lm, ps)) :
    lm = specCohortMean ps := by
  unfold getVolumeLandmarks at h
  cases hmo : mapOption (getVolumeLandmarksOne pcts) cohort with
  | none => rw [hmo] at h; simp at h
  | some rows =>
    rw [hmo] at h
    simp only [Option.map_some', Option.some_inj, Prod.mk.injEq] at h
    obtain ⟨h1, h2⟩ := h
    subst h2
    rw [← h1]
    apply meanAxis0_eq_spec
    cases cohort with
    | nil => exact absurd rfl hc
    | cons c ct =>
      simp only [mapOption] at hmo
      cases hfa : getVolumeLandmarksOne pcts c with
      | none => rw [hfa] at hmo; simp at hmo
      | some r =>
        rw [hfa] at hmo
        cases hmt : mapOption (getVolumeLandmarksOne pcts) ct with
        | none => rw [hmt] at hmo; simp at hmo
        | some rt =>
          rw [hmt] at hmo
          simp only [Option.some_bind, Option.map_some', Option.some_inj] at hmo
          rw [← hmo]
          unfold getVolumeLandmarksOne onePct at hfa
          have := mapOption_length _ hfa
          simpa using this

/-- C6 witness: a cohort whose two per-subject profiles are
`[10, 20, 30]` and `[30, 40, 50]` has the landmark profile
`[20, 30, 40]` — its elementwise mean. -/
theorem landmarks_are_cohort_mean_witness :
    specCohortMean [[10, 20, 30], [30, 40, 50]] = [20, 30, 40] :=
  (landmarks_are_cohort_mean [1/4, 1/2, 1] [[10, 20, 25, 30], [30, 40, 45, 50]]
    [20, 30, 40] [[10, 20, 30], [30, 40, 50]] (by decide) (by decide)).symm

lemma mapOption_perm {α β : Type} (f : α → Option β) :
    ∀ {l₁ l₂ : List α}, l₁.Perm l₂ →
      (mapOption f l₁ = none ∧ mapOption f l₂ = none) ∨
      ∃ b₁ b₂, mapOption f l₁ = some b₁ ∧ mapOption f l₂ = some b₂ ∧ b₁.Perm b₂ := by
  intro l₁ l₂ h
  induction h with
  | nil => exact Or.inr ⟨[], [], rfl, rfl, List.Perm.nil⟩
  | cons a _ ih =>
    cases hfa : f a with
    | none =>
      exact Or.inl ⟨by simp [mapOption, hfa], by simp [mapOption, hfa]⟩
    | some b =>
      rcases ih with ⟨h1, h2⟩ | ⟨b1, b2, h1, h2, hp⟩
      · exact Or.inl ⟨by simp [mapOption, hfa, h1], by simp [mapOption, hfa, h2]⟩
      · exact Or.inr ⟨b :: b1, b :: b2, by simp [mapOption, hfa, h1],
          by simp [mapOption, hfa, h2], hp.cons b⟩
  | swap x y l =>
    cases hfx : f x with
    | none =>
      refine Or.inl ⟨?_, ?_⟩ <;> cases hfy : f y <;>
        simp [mapOption, hfx, hfy]
    | some bx =>
      cases hfy : f y with
      | none => exact Or.inl ⟨by simp [mapOption, hfx, hfy], by simp [mapOption, hfx, hfy]⟩
      | some bY =>
        cases hml : mapOption f l with
        | none => exact Or.inl ⟨by simp [mapOption, hfx, hfy, hml],
            by simp [mapOption, hfx, hfy, hml]⟩
        | some bl =>
          exact Or.inr ⟨bY :: bx :: bl, bx :: bY :: bl,
            by simp [mapOption, hfx, hfy, hml],
            by simp [mapOption, hfx, hfy, hml],
            List.Perm.swap bx bY bl⟩
  | trans _ _ ih₁ ih₂ =>
    rcases ih₁ with ⟨ha, hb⟩ | ⟨b1, b2, ha, hb, hp⟩
    · rcases ih₂ with ⟨hc, hd⟩ | ⟨c1, c2, hc, hd, hq⟩
      · exact Or.inl ⟨ha, hd⟩
      · rw [hb] at hc; simp at hc
    · rcases ih₂ with ⟨hc, hd⟩ | ⟨c1, c2, hc, hd, hq⟩
      · rw [hb] at hc; simp at hc
      · rw [hb] at hc
        rw [Option.some_inj] at hc
        exact Or.inr ⟨b1, c2, ha, hd, hp.trans (hc ▸ hq)⟩

lemma meanAxis0_perm (k : ℕ) {ps₁ ps₂ : List (List ℚ)} (h : ps₁.Perm ps₂) :
    meanAxis0 k ps₁ = meanAxis0 k ps₂ := by
  unfold meanAxis0 colSum
  apply List.map_congr_left
  intro j _
  rw [(h.map (fun r => r.getD j 0)).sum_eq, h.length_eq]

/-- C7: landmark computation is invariant under permutation of the
cohort's subjects — the resulting landmark profile (first component) is
identical, exactly. -/
theorem landmarks_perm_invariant (pcts : List ℚ) (xs ys : List (List ℚ))
    (h : xs.Perm ys) :
    Option.map Prod.fst (getVolumeLandmarks pcts xs) =
      Option.map Prod.fst (getVolumeLandmarks pcts ys) := by
  unfold getVolumeLandmarks
  rcases mapOption_perm (getVolumeLandmarksOne pcts) h with ⟨h1, h2⟩ | ⟨b1, b2, h1, h2, hp⟩
  · rw [h1, h2]
  · rw [h1, h2]
    simp only [Option.map_some']
    rw [meanAxis0_perm pcts.length hp]

/-- C7 witness: swapping the two subjects of a cohort leaves the
landmark profile unchanged. -/
theorem landmarks_perm_invariant_witness :
    Option.map Prod.fst (getVolumeLandmarks [1/2] [[1], [2]]) =
      Option.map Prod.fst (getVolumeLandmarks [1/2] [[2], [1]]) :=
  landmarks_perm_invariant [1/2] [[1], [2]] [[2], [1]] (List.Perm.swap [2] [1] [])

lemma getD_map (f : ℚ → ℚ) (l : List ℚ) (i : ℕ) (hi : i < l.length) :
    (l.map f).getD i 0 = f (l.getD i 0) := by
  rw [List.getD_eq_get?, List.getD_eq_get?, List.get?_map, List.get?_eq_get hi]
  rfl

/-- C4: after interpolation, the final value of every voxel above the
subject's maximum percentile value is the landmark profile's maximum,
and the final value of every voxel below the subject's minimum
percentile value is exactly 0. -/
theorem transform_overwrites_extremes (landmarks pct volume : List ℚ) (i : ℕ)
    (hord : pct.headD 0 ≤ pct.getLastD 0)
    (hi : i < (bgCorrect volume).length) :
    (pct.getLastD 0 < (bgCorrect volume).getD i 0 →
      (intensityTransform landmarks pct volume).getD i 0 = landmarks.getLastD 0) ∧
    ((bgCorrect volume).getD i 0 < pct.headD 0 →
      (intensityTransform landmarks pct volume).getD i 0 = 0) := by
  unfold intensityTransform
  rw [getD_map _ _ _ hi]
  constructor
  · intro hhigh
    simp only [transformVoxel]
    rw [if_neg (by linarith), if_pos (le_of_lt hhigh)]
  · intro hlow
    simp only [transformVoxel]
    rw [if_pos hlow]

/-- C4 witness: with subject profile `[2, 4]` and landmarks `[5, 7]`,
the voxel of value 10 (above the maximum percentile value 4) ends at
the landmark maximum. -/
theorem transform_overwrites_extremes_witness :
    (intensityTransform [5, 7] [2, 4] [10, 1, 3]).getD 0 0 =
      ([5, 7] : List ℚ).getLastD 0 :=
  (transform_overwrites_extremes [5, 7] [2, 4] [10, 1, 3] 0
    (by decide) (by decide)).1 (by decide)

/-- C9: when every voxel's cross-channel sum equals the minimum sum —
no foreground exists — the merge-and-crop fails (`np.min` over the
empty foreground index list raises; the result is `none`), never a
silently degenerate crop. -/
theorem merge_empty_foreground_fails (bs : ℕ × ℕ × ℕ) (es : ℕ)
    (full : Arr4) (mask : Arr3)
    (h : ∀ t ∈ allIdx full, fullSum full t.1 t.2.1 t.2.2 = minFullSum full) :
    keepMinimumVolume bs es full mask = none := by
  have hnz : nonBgIdx full = [] := by
    unfold nonBgIdx
    rw [List.filter_eq_nil_iff]
    intro t ht
    simp [h t ht]
  unfold keepMinimumVolume
  rw [hnz]

/-- C9 witness: an all-zero volume has no foreground and fails. -/
theorem merge_empty_foreground_fails_witness :
    keepMinimumVolume (240, 240, 155) 1 zeroFull zeroMask = none :=
  merge_empty_foreground_fails (240, 240, 155) 1 zeroFull zeroMask (by decide)

lemma keepMin_single (bs : ℕ × ℕ × ℕ) (es : ℕ) (full : Arr4) (mask : Arr3)
    (t : ℕ × ℕ × ℕ) (h : nonBgIdx full = [t]) :
    keepMinimumVolume bs es full mask =
      some { begins := (clampBegin ((t.1 : ℤ) - es), clampBegin ((t.2.1 : ℤ) - es),
                        clampBegin ((t.2.2 : ℤ) - es)),
             ends := (clampEnd bs.1 ((t.1 : ℤ) + 1 + es), clampEnd bs.2.1 ((t.2.1 : ℤ) + 1 + es),
                      clampEnd bs.2.2 ((t.2.2 : ℤ) + 1 + es)),
             newFull := subArray4 full
               (clampBegin ((t.1 : ℤ) - es), clampBegin ((t.2.1 : ℤ) - es),
                clampBegin ((t.2.2 : ℤ) - es))
               (clampEnd bs.1 ((t.1 : ℤ) + 1 + es), clampEnd bs.2.1 ((t.2.1 : ℤ) + 1 + es),
                clampEnd bs.2.2 ((t.2.2 : ℤ) + 1 + es)),
             newMask := subArray3 mask
               (clampBegin ((t.1 : ℤ) - es), clampBegin ((t.2.1 : ℤ) - es),
                clampBegin ((t.2.2 : ℤ) - es))
               (clampEnd bs.1 ((t.1 : ℤ) + 1 + es), clampEnd bs.2.1 ((t.2.1 : ℤ) + 1 + es),
                clampEnd bs.2.2 ((t.2.2 : ℤ) + 1 + es)) } := by
  unfold keepMinimumVolume
  rw [h]
  rfl

/-- C2: the §8 merge scenario — sole foreground voxel `(2,2,2)` in a
`(4,4,4)` volume with margin 1 gives the bounding box `[1,4)` on every
spatial axis and a cropped shape `(3,3,3,4)` (the upper clamp compares
against `BRAIN_SHAPE`, whose axes are all ≥ 5 for the real dataset, so
it does not bite). -/
theorem merge_scenario_bbox (bs : ℕ × ℕ × ℕ)
    (h0 : 5 ≤ bs.1) (h1 : 5 ≤ bs.2.1) (h2 : 5 ≤ bs.2.2) :
    (keepMinimumVolume bs 1 scenarioFull scenarioMask).map
      (fun r => (r.begins, r.ends, (r.newFull.n0, r.newFull.n1, r.newFull.n2, r.newFull.nc))) =
      some ((1, 1, 1), (4, 4, 4), (3, 3, 3, 4)) := by
  rw [keepMin_single bs 1 scenarioFull scenarioMask (2, 2, 2) (by decide)]
  have hce0 : clampEnd bs.1 (((2 : ℕ) : ℤ) + 1 + ((1 : ℕ) : ℤ)) = 4 := by
    unfold clampEnd; rw [if_neg (by omega)]; push_cast
  have hce1 : clampEnd bs.2.1 (((2 : ℕ) : ℤ) + 1 + ((1 : ℕ) : ℤ)) = 4 := by
    unfold clampEnd; rw [if_neg (by omega)]; push_cast
  have hce2 : clampEnd bs.2.2 (((2 : ℕ) : ℤ) + 1 + ((1 : ℕ) : ℤ)) = 4 := by
    unfold clampEnd; rw [if_neg (by omega)]; push_cast
  simp only [Option.map_some']
  simp only [hce0, hce1, hce2, subArray4, scenarioFull]
  norm_num [clampBegin, sliceLen]
  decide

/-- C2 witness: at the canonical BraTS `BRAIN_SHAPE` `(240, 240, 155)`. -/
theorem merge_scenario_bbox_witness :
    (keepMinimumVolume (240, 240, 155) 1 scenarioFull scenarioMask).map
      (fun r => (r.begins, r.ends, (r.newFull.n0, r.newFull.n1, r.newFull.n2, r.newFull.nc))) =
      some ((1, 1, 1), (4, 4, 4), (3, 3, 3, 4)) :=
  merge_scenario_bbox (240, 240, 155) (by decide) (by decide) (by decide)

lemma clampBegin_nonneg (b : ℤ) : 0 ≤ clampBegin b := by
  unfold clampBegin
  split <;> omega

lemma clampEnd_le (bsa : ℕ) (e : ℤ) : clampEnd bsa e ≤ (bsa : ℤ) - 1 := by
  unfold clampEnd
  split <;> omega

lemma keepMin_cons (bs : ℕ × ℕ × ℕ) (es : ℕ) (full : Arr4) (mask : Arr3)
    (t : ℕ × ℕ × ℕ) (ts : List (ℕ × ℕ × ℕ)) (h : nonBgIdx full = t :: ts) :
    keepMinimumVolume bs es full mask =
      some { begins :=
               (clampBegin (listMin 0 ((t :: ts).map (fun u => (u.1 : ℤ))) - es),
                clampBegin (listMin 0 ((t :: ts).map (fun u => (u.2.1 : ℤ))) - es),
                clampBegin (listMin 0 ((t :: ts).map (fun u => (u.2.2 : ℤ))) - es)),
             ends :=
               (clampEnd bs.1 (listMax 0 ((t :: ts).map (fun u => (u.1 : ℤ))) + 1 + es),
                clampEnd bs.2.1 (listMax 0 ((t :: ts).map (fun u => (u.2.1 : ℤ))) + 1 + es),
                clampEnd bs.2.2 (listMax 0 ((t :: ts).map (fun u => (u.2.2 : ℤ))) + 1 + es)),
             newFull := subArray4 full
               (clampBegin (listMin 0 ((t :: ts).map (fun u => (u.1 : ℤ))) - es),
                clampBegin (listMin 0 ((t :: ts).map (fun u => (u.2.1 : ℤ))) - es),
                clampBegin (listMin 0 ((t :: ts).map (fun u => (u.2.2 : ℤ))) - es))
               (clampEnd bs.1 (listMax 0 ((t :: ts).map (fun u => (u.1 : ℤ))) + 1 + es),
                clampEnd bs.2.1 (listMax 0 ((t :: ts).map (fun u => (u.2.1 : ℤ))) + 1 + es),
                clampEnd bs.2.2 (listMax 0 ((t :: ts).map (fun u => (u.2.2 : ℤ))) + 1 + es)),
             newMask := subArray3 mask
               (clampBegin (listMin 0 ((t :: ts).map (fun u => (u.1 : ℤ))) - es),
                clampBegin (listMin 0 ((t :: ts).map (fun u => (u.2.1 : ℤ))) - es),
                clampBegin (listMin 0 ((t :: ts).map (fun u => (u.2.2 : ℤ))) - es))
               (clampEnd bs.1 (listMax 0 ((t :: ts).map (fun u => (u.1 : ℤ))) + 1 + es),
                clampEnd bs.2.1 (listMax 0 ((t :: ts).map (fun u => (u.2.1 : ℤ))) + 1 + es),
                clampEnd bs.2.2 (listMax 0 ((t :: ts).map (fun u => (u.2.2 : ℤ))) + 1 + es)) } := by
  unfold keepMinimumVolume
  rw [h]

lemma keepMin_bounds (bs : ℕ × ℕ × ℕ) (es : ℕ) (full : Arr4) (mask : Arr3)
    (b0 b1 b2 e0 e1 e2 : ℤ)
    (h : (keepMinimumVolume bs es full mask).map (fun r => (r.begins, r.ends)) =
          some ((b0, b1, b2), (e0, e1, e2))) :
    (0 ≤ b0 ∧ 0 ≤ b1 ∧ 0 ≤ b2) ∧
      (e0 ≤ (bs.1 : ℤ) - 1 ∧ e1 ≤ (bs.2.1 : ℤ) - 1 ∧ e2 ≤ (bs.2.2 : ℤ) - 1) := by
  cases hnz : nonBgIdx full with
  | nil =>
    unfold keepMinimumVolume at h
    rw [hnz] at h
    simp at h
  | cons t ts =>
    rw [keepMin_cons bs es full mask t ts hnz] at h
    simp only [Option.map_some', Option.some_inj, Prod.mk.injEq] at h
    obtain ⟨⟨hb0, hb1, hb2⟩, he0, he1, he2⟩ := h
    exact ⟨⟨hb0 ▸ clampBegin_nonneg _, hb1 ▸ clampBegin_nonneg _, hb2 ▸ clampBegin_nonneg _⟩,
      he0 ▸ clampEnd_le _ _, he1 ▸ clampEnd_le _ _, he2 ▸ clampEnd_le _ _⟩

/-- C3 (amended): the expanded bounds are clamped to `[0, BRAIN_SHAPE[i] - 1]`;
for a volume whose extents equal `BRAIN_SHAPE` (as for every pipeline
volume), the final slice indices therefore stay inside the array. -/
theorem bbox_clamp_safe (bs : ℕ × ℕ × ℕ) (es : ℕ) (full : Arr4) (mask : Arr3)
    (b0 b1 b2 e0 e1 e2 : ℤ)
    (hn0 : full.n0 = bs.1) (hn1 : full.n1 = bs.2.1) (hn2 : full.n2 = bs.2.2)
    (h : (keepMinimumVolume bs es full mask).map (fun r => (r.begins, r.ends)) =
          some ((b0, b1, b2), (e0, e1, e2))) :
    (0 ≤ b0 ∧ e0 ≤ (full.n0 : ℤ) - 1) ∧ (0 ≤ b1 ∧ e1 ≤ (full.n1 : ℤ) - 1) ∧
      (0 ≤ b2 ∧ e2 ≤ (full.n2 : ℤ) - 1) := by
  obtain ⟨⟨hb0, hb1, hb2⟩, he0, he1, he2⟩ := keepMin_bounds bs es full mask _ _ _ _ _ _ h
  rw [hn0, hn1, hn2]
  exact ⟨⟨hb0, he0⟩, ⟨hb1, he1⟩, ⟨hb2, he2⟩⟩

/-- C3 counterexample: for a `(4,4,4)` volume whose foreground voxel
`(3,3,3)` touches the edge, with margin 1 and the dataset constant
`BRAIN_SHAPE = (240,240,155)`, the upper bounds come out as 5 — not
clamped to the volume's own `axis_extent - 1 = 3`: the slice `[2:5)`
addresses index 4, which is outside the `(4,4,4)` array. -/
theorem bbox_clamp_cex :
    (keepMinimumVolume (240, 240, 155) 1 edgeFull scenarioMask).map (fun r => r.ends) =
        some (5, 5, 5) ∧
      edgeFull.n0 = 4 ∧ ¬ ((5 : ℤ) ≤ (4 : ℤ) - 1) :=
  ⟨by decide, rfl, by decide⟩

/-- C3 witness: with `BRAIN_SHAPE = (4,4,4)` matching the volume's own
extents, the scenario volume's bounds `[1,4)` are cut to `[1,3]`-safe
values `(1,1,1)`–`(3,3,3)`, inside the array. -/
theorem bbox_clamp_safe_witness :
    (0 ≤ (1 : ℤ) ∧ (3 : ℤ) ≤ (scenarioFull.n0 : ℤ) - 1) ∧
      (0 ≤ (1 : ℤ) ∧ (3 : ℤ) ≤ (scenarioFull.n1 : ℤ) - 1) ∧
      (0 ≤ (1 : ℤ) ∧ (3 : ℤ) ≤ (scenarioFull.n2 : ℤ) - 1) :=
  bbox_clamp_safe (4, 4, 4) 1 scenarioFull scenarioMask 1 1 1 3 3 3
    rfl rfl rfl (by decide)

/-- C10: the upper-bound clamp compares against the global constant
`BRAIN_SHAPE`, not the input volume's own extent: every returned upper
bound is ≤ `BRAIN_SHAPE[i] - 1` whatever the volume's extents are, and
for the edge-touching `(4,4,4)` volume under `BRAIN_SHAPE = (240,240,155)`
the effective bound 5 differs from the volume's own `axis_extent - 1`. -/
theorem clamp_uses_global_shape :
    (∀ (bs : ℕ × ℕ × ℕ) (es : ℕ) (full : Arr4) (mask : Arr3)
        (b : ℤ × ℤ × ℤ) (e0 e1 e2 : ℤ),
        (keepMinimumVolume bs es full mask).map (fun r => (r.begins, r.ends)) =
          some (b, (e0, e1, e2)) →
        e0 ≤ (bs.1 : ℤ) - 1 ∧ e1 ≤ (bs.2.1 : ℤ) - 1 ∧ e2 ≤ (bs.2.2 : ℤ) - 1) ∧
      ((keepMinimumVolume (240, 240, 155) 1 edgeFull scenarioMask).map (fun r => r.ends) =
          some (5, 5, 5) ∧
        edgeFull.n0 = 4 ∧ (5 : ℤ) ≠ (edgeFull.n0 : ℤ) - 1) := by
  constructor
  · intro bs es full mask b e0 e1 e2 h
    obtain ⟨b0, b1, b2⟩ := b
    exact (keepMin_bounds bs es full mask b0 b1 b2 e0 e1 e2 h).2
  · exact ⟨by decide, rfl, by decide⟩

/-- C10 witness: the universal cap applied at `BRAIN_SHAPE = (4,4,4)`. -/
theorem clamp_uses_global_shape_witness :
    (3 : ℤ) ≤ ((4 : ℕ) : ℤ) - 1 ∧ (3 : ℤ) ≤ ((4 : ℕ) : ℤ) - 1 ∧
      (3 : ℤ) ≤ ((4 : ℕ) : ℤ) - 1 :=
  clamp_uses_global_shape.1 (4, 4, 4) 1 scenarioFull scenarioMask (1, 1, 1) 3 3 3 (by decide)

end BTC
